import Mathlib

/-!
Shallow embedding of the BLE peripheral sample (`src/main.rs`).

The program keeps one shared boolean (`STATE`, an `AtomicBool` initialised to
`false`), dispatches peripheral events in `handle_updates`, reads console
lines in `start_app`, and performs a bootstrap sequence (wait for power,
`add_service`, `start_advertising`).

Strings are modelled as `List Char`; byte payloads as `List Nat` (each entry a
byte).  The observable effects of one dispatcher step — the new state, the
responses sent through the one-shot responder, and the characteristic-update
calls issued — are collected in an explicit output structure.
-/

/-- Characters of a string literal, the `List Char` view used throughout. -/
def chars (s : String) : List Char := s.data

/-- Response kind of the peripheral library.  Modelled from the spec: the
library's response enum is an external collaborator; the program only ever
uses the success kind, all rejection kinds are collapsed into `Failure`. -/
inductive RequestResponse
  | Success
  | Failure
deriving DecidableEq

/-- Payload of a read response (`ReadRequestResponse` in the source). -/
structure ReadRequestResponse where
  value : List Char
  response : RequestResponse
deriving DecidableEq

/-- Payload of a write response (`WriteRequestResponse` in the source). -/
structure WriteRequestResponse where
  response : RequestResponse
deriving DecidableEq

/-- A response sent through a responder channel. -/
inductive SentResponse
  | read (r : ReadRequestResponse)
  | write (w : WriteRequestResponse)
deriving DecidableEq

/-- Inbound peripheral events (`PeripheralEvent` in the source).  Request
descriptors are opaque, modelled as `Nat`; the one-shot responders are
implicit — responses are recorded in the step output instead.  `Other`
stands for every further variant of the library's event enum, all of which
fall to the `_` arm of `handle_updates`. -/
inductive PeripheralEvent
  | StateUpdate (is_powered : Bool)
  | CharacteristicSubscriptionUpdate (request : Nat) (subscribed : Bool)
  | ReadRequest (request : Nat) (offset : Nat)
  | WriteRequest (request : Nat) (offset : Nat) (value : List Nat)
  | Other
deriving DecidableEq

/-- Whether a byte is a UTF-8 continuation byte (`0x80..=0xBF`). -/
def isCont (b : Nat) : Bool := 0x80 ≤ b && b ≤ 0xBF

/-- Strict UTF-8 decoding of a byte list, as validated by Rust's
`String::from_utf8`: rejects overlong encodings, surrogates and code points
above `0x10FFFF`.  Returns the decoded characters, or `none` on invalid
input. -/
def utf8Decode : List Nat → Option (List Char)
  | [] => some []
  | b :: rest =>
    if b ≤ 0x7F then
      (utf8Decode rest).map (fun cs => Char.ofNat b :: cs)
    else if 0xC2 ≤ b && b ≤ 0xDF then
      match rest with
      | b1 :: rest2 =>
        if isCont b1 then
          (utf8Decode rest2).map (fun cs =>
            Char.ofNat ((b - 0xC0) * 64 + (b1 - 0x80)) :: cs)
        else none
      | [] => none
    else if 0xE0 ≤ b && b ≤ 0xEF then
      match rest with
      | b1 :: b2 :: rest2 =>
        let lo1 := if b = 0xE0 then 0xA0 else 0x80
        let hi1 := if b = 0xED then 0x9F else 0xBF
        if (lo1 ≤ b1 && b1 ≤ hi1) && isCont b2 then
          (utf8Decode rest2).map (fun cs =>
            Char.ofNat ((b - 0xE0) * 4096 + (b1 - 0x80) * 64 + (b2 - 0x80)) :: cs)
        else none
      | _ => none
    else if 0xF0 ≤ b && b ≤ 0xF4 then
      match rest with
      | b1 :: b2 :: b3 :: rest2 =>
        let lo1 := if b = 0xF0 then 0x90 else 0x80
        let hi1 := if b = 0xF4 then 0x8F else 0xBF
        if (lo1 ≤ b1 && b1 ≤ hi1) && (isCont b2 && isCont b3) then
          (utf8Decode rest2).map (fun cs =>
            Char.ofNat ((b - 0xF0) * 262144 + (b1 - 0x80) * 4096
              + (b2 - 0x80) * 64 + (b3 - 0x80)) :: cs)
        else none
      | _ => none
    else none

/-- Rust's `char::is_whitespace` (the Unicode `White_Space` property). -/
def rustIsWhitespace (c : Char) : Bool :=
  (0x09 ≤ c.val && c.val ≤ 0x0D) || c.val = 0x20 || c.val = 0x85 ||
  c.val = 0xA0 || c.val = 0x1680 ||
  (0x2000 ≤ c.val && c.val ≤ 0x200A) ||
  c.val = 0x2028 || c.val = 0x2029 || c.val = 0x202F || c.val = 0x205F ||
  c.val = 0x3000

/-- Rust's `str::trim`: drop whitespace from both ends. -/
def rustTrim (l : List Char) : List Char :=
  ((l.dropWhile rustIsWhitespace).reverse.dropWhile rustIsWhitespace).reverse

/-- ASCII lowercasing of one character. -/
def asciiLowerChar (c : Char) : Char :=
  if 'A' ≤ c && c ≤ 'Z' then Char.ofNat (c.toNat + 32) else c

/-- Models Rust's `str::to_lowercase` as used on console input.  Restricted
to the ASCII mapping: the full Unicode lowercasing agrees with it on every
string whose lowercase form could equal the ASCII tokens compared against. -/
def rustToLowercase (l : List Char) : List Char := l.map asciiLowerChar

/-- Initial value of the `STATE` cell: `AtomicBool::new(false)`, i.e. OFF. -/
def STATE_init : Bool := false

/-- Observable outcome of handling one event: the state cell after the step,
the responses sent through the event's responder, and the values passed to
`update_characteristic`. -/
structure HandleOutput where
  state : Bool
  responses : List SentResponse
  updates : List (List Char)
deriving DecidableEq

/-- The event dispatcher `handle_updates` of `src/main.rs`, as a function of
the incoming event and the current `STATE` value.

* `StateUpdate` and `CharacteristicSubscriptionUpdate` only log.
* `ReadRequest` answers with `"on"`/`"off"` from the current state, success.
* `WriteRequest` decodes the payload as UTF-8; on success it trims and
  matches case-sensitively against `"on"`/`"off"`, storing the state on a
  match, and calls `update_characteristic` with the matched token or, on no
  match, the raw decoded text; on decode failure it only logs.  In both
  cases it then sends one success response.
* every other event only logs (`_` arm). -/
def handle_updates (event : PeripheralEvent) (state : Bool) : HandleOutput :=
  match event with
  | .StateUpdate _ => ⟨state, [], []⟩
  | .CharacteristicSubscriptionUpdate _ _ => ⟨state, [], []⟩
  | .ReadRequest _ _ =>
    let response_value := if state then chars "on" else chars "off"
    ⟨state, [.read ⟨response_value, .Success⟩], []⟩
  | .WriteRequest _ _ value =>
    match utf8Decode value with
    | some msg =>
      if rustTrim msg = chars "on" then
        ⟨true, [.write ⟨.Success⟩], [chars "on"]⟩
      else if rustTrim msg = chars "off" then
        ⟨false, [.write ⟨.Success⟩], [chars "off"]⟩
      else
        ⟨state, [.write ⟨.Success⟩], [msg]⟩
    | none => ⟨state, [.write ⟨.Success⟩], []⟩
  | .Other => ⟨state, [], []⟩

/-- The state cell after one dispatcher step. -/
def stepState (s : Bool) (e : PeripheralEvent) : Bool :=
  (handle_updates e s).state

/-- The state cell after the dispatcher processes a sequence of events in
arrival order, starting from state `s`. -/
def processEvents (s : Bool) (events : List PeripheralEvent) : Bool :=
  events.foldl stepState s

/-- The state token carried by an event, if any: `some true` for a write
whose payload decodes and trims to `"on"`, `some false` for `"off"`,
`none` otherwise. -/
def writeToken : PeripheralEvent → Option Bool
  | .WriteRequest _ _ value =>
    match utf8Decode value with
    | some msg =>
      if rustTrim msg = chars "on" then some true
      else if rustTrim msg = chars "off" then some false
      else none
    | none => none
  | _ => none

/-- Console output tags for the three `println!` calls of the console loop. -/
inductive ConsolePrint
  | changedOn
  | changedOff
  | writing (raw : List Char)
deriving DecidableEq

/-- Observable outcome of one console-loop iteration. -/
structure ConsoleOutput where
  state : Bool
  printed : List ConsolePrint
  updates : List (List Char)
deriving DecidableEq

/-- One iteration of the console loop in `start_app`: normalise the line by
trim and lowercase; `"on"`/`"off"` store the state and print a confirmation,
anything else prints the forwarding message; in every branch the raw input
line is passed to `update_characteristic`. -/
def processLine (input : List Char) (state : Bool) : ConsoleOutput :=
  let trimmed_input := rustToLowercase (rustTrim input)
  if trimmed_input = chars "on" then
    ⟨true, [.changedOn], [input]⟩
  else if trimmed_input = chars "off" then
    ⟨false, [.changedOff], [input]⟩
  else
    ⟨state, [.writing input], [input]⟩

/-- Environment of the bootstrap sequence: the result of each successive
`is_powered` poll (`unwrap_or(false)` already applied), and whether
`add_service` and `start_advertising` succeed. -/
structure Facade where
  is_powered : Nat → Bool
  add_service_ok : Bool
  start_advertising_ok : Bool

/-- The facade calls the bootstrap sequence can make after the power wait. -/
inductive StartupCall
  | addService
  | startAdvertising
deriving DecidableEq

/-- The power-wait loop of `start_app`: poll `is_powered` starting at poll
index `i`; return the index of the first `true` poll, or `none` if the fuel
runs out first (the real loop has no timeout and would still be waiting). -/
def pollPowerFrom (p : Nat → Bool) : Nat → Nat → Option Nat
  | _, 0 => none
  | i, fuel + 1 => if p i then some i else pollPowerFrom p (i + 1) fuel

/-- Facade calls made once power is up: `add_service` always; on its failure
the function returns, so `start_advertising` is called only when
`add_service` succeeded (and is called even if it itself then fails). -/
def startupCalls (f : Facade) : List StartupCall :=
  if f.add_service_ok then [.addService, .startAdvertising] else [.addService]

/-- The bootstrap sequence of `start_app`: wait for power, then issue the
facade calls.  `none` means the power wait is still running after `fuel`
polls — no facade call has been made. -/
def start_app (f : Facade) (fuel : Nat) : Option (List StartupCall) :=
  match pollPowerFrom f.is_powered 0 fuel with
  | some _ => some (startupCalls f)
  | none => none

/-! Helper lemmas. -/

theorem getLast?_getD_cons {α : Type} (l : List α) :
    ∀ a d : α, ((a :: l).getLast?).getD d = (l.getLast?).getD a := by
  induction l with
  | nil => intro a d; rfl
  | cons b l ih =>
    intro a d
    rw [List.getLast?_cons_cons, ih b d, ih b a]

theorem off_ne_on : chars "off" ≠ chars "on" := by decide

theorem stepState_eq (s : Bool) (e : PeripheralEvent) :
    stepState s e = (writeToken e).getD s := by
  cases e with
  | WriteRequest r o v =>
    simp only [stepState, handle_updates, writeToken]
    cases utf8Decode v with
    | none => rfl
    | some msg =>
      by_cases h1 : rustTrim msg = chars "on"
      · simp [h1]
      · have hne : chars "off" ≠ chars "on" := by decide
        by_cases h2 : rustTrim msg = chars "off" <;> simp [h1, h2, hne]
  | StateUpdate b => rfl
  | CharacteristicSubscriptionUpdate r b => rfl
  | ReadRequest r o => rfl
  | Other => rfl

theorem processEvents_last (s : Bool) (events : List PeripheralEvent) :
    processEvents s events = ((events.filterMap writeToken).getLast?).getD s := by
  induction events generalizing s with
  | nil => rfl
  | cons e rest ih =>
    show processEvents (stepState s e) rest = _
    rw [ih (stepState s e), stepState_eq s e]
    cases h : writeToken e with
    | none => simp [List.filterMap_cons, h]
    | some t =>
      simp only [List.filterMap_cons, h, Option.getD_some]
      exact (getLast?_getD_cons (rest.filterMap writeToken) t s).symm

theorem pollPowerFrom_powered (p : Nat → Bool) :
    ∀ fuel i j, pollPowerFrom p i fuel = some j → p j = true ∧ j < i + fuel := by
  intro fuel
  induction fuel with
  | zero => intro i j h; exact absurd h (by simp [pollPowerFrom])
  | succ fuel ih =>
    intro i j h
    rw [pollPowerFrom] at h
    by_cases hp : p i
    · simp [hp] at h
      subst h
      exact ⟨hp, by omega⟩
    · simp [hp] at h
      obtain ⟨hj, hlt⟩ := ih (i + 1) j h
      exact ⟨hj, by omega⟩

/-! Claim theorems. -/

/-- C1: for every sequence of WriteRequested events, if the payloads that
decode and trim to exactly `"on"` or `"off"` are nonempty and the last such
token is `t` (`true` = ON, `false` = OFF), the state cell after processing
the sequence is `t`, whatever the other writes' payloads are. -/
theorem write_sequence_last_wins (events : List PeripheralEvent) (s t : Bool)
    (hw : ∀ e ∈ events, ∃ r o v, e = PeripheralEvent.WriteRequest r o v)
    (hlast : (events.filterMap writeToken).getLast? = some t) :
    processEvents s events = t := by
  rw [processEvents_last, hlast]
  rfl

/-- Witness for C1: writes `"on"`, `"maybe"`, `" off "` (all byte-encoded)
leave the state OFF, since the last recognised token is `"off"`. -/
theorem write_sequence_last_wins_witness :
    processEvents false
      [PeripheralEvent.WriteRequest 0 0 [111, 110],
       PeripheralEvent.WriteRequest 0 0 [109, 97, 121, 98, 101],
       PeripheralEvent.WriteRequest 0 0 [32, 111, 102, 102, 32]] = false := by
  apply write_sequence_last_wins _ false false
  · intro e he
    simp only [List.mem_cons, List.not_mem_nil, or_false] at he
    rcases he with h | h | h <;> exact ⟨_, _, _, h⟩
  · decide

/-- C2: a ReadRequested event sends exactly one response, of success kind,
whose value is `"on"` when the state cell is ON and `"off"` otherwise, and
it leaves the state cell unchanged. -/
theorem read_request_one_success_response (request offset : Nat) (s : Bool) :
    (handle_updates (.ReadRequest request offset) s).responses
      = [.read ⟨if s then chars "on" else chars "off", .Success⟩] ∧
    (handle_updates (.ReadRequest request offset) s).state = s :=
  ⟨rfl, rfl⟩

/-- C3: a WriteRequested event always sends exactly one response, of success
kind, whatever the payload bytes are. -/
theorem write_request_always_acknowledged
    (request offset : Nat) (value : List Nat) (s : Bool) :
    (handle_updates (.WriteRequest request offset value) s).responses
      = [.write ⟨.Success⟩] := by
  simp only [handle_updates]
  cases utf8Decode value with
  | none => rfl
  | some msg =>
    by_cases h1 : rustTrim msg = chars "on"
    · simp [h1]
    · by_cases h2 : rustTrim msg = chars "off" <;> simp [h1, h2, off_ne_on]

/-- C4: a WriteRequested event whose payload is not valid text, or decodes
and trims to neither `"on"` nor `"off"`, leaves the state cell unchanged and
still sends one success response. -/
theorem write_unrecognized_no_state_change
    (request offset : Nat) (value : List Nat) (s : Bool)
    (h : utf8Decode value = none ∨
      ∃ msg, utf8Decode value = some msg ∧
        rustTrim msg ≠ chars "on" ∧ rustTrim msg ≠ chars "off") :
    (handle_updates (.WriteRequest request offset value) s).state = s ∧
    (handle_updates (.WriteRequest request offset value) s).responses
      = [.write ⟨.Success⟩] := by
  rcases h with h | ⟨msg, hm, h1, h2⟩
  · simp [handle_updates, h]
  · simp [handle_updates, hm, h1, h2]

/-- Witness for C4: the text payload `"maybe"` and the non-UTF-8 payload
`[0xFF, 0xFE]` both leave the state unchanged and are acknowledged. -/
theorem write_unrecognized_no_state_change_witness :
    ((handle_updates (.WriteRequest 0 0 [109, 97, 121, 98, 101]) false).state
        = false ∧
      (handle_updates (.WriteRequest 0 0 [109, 97, 121, 98, 101]) false).responses
        = [.write ⟨.Success⟩]) ∧
    ((handle_updates (.WriteRequest 0 0 [255, 254]) true).state = true ∧
      (handle_updates (.WriteRequest 0 0 [255, 254]) true).responses
        = [.write ⟨.Success⟩]) :=
  ⟨write_unrecognized_no_state_change 0 0 [109, 97, 121, 98, 101] false
      (Or.inr ⟨chars "maybe", by decide, by decide, by decide⟩),
    write_unrecognized_no_state_change 0 0 [255, 254] true (Or.inl (by decide))⟩

/-- C5: the remote write path is case-sensitive: a payload whose trimmed
text is a case variant of `"on"`/`"off"` (equal after lowercasing) but not
the exact lowercase token does not mutate the state cell. -/
theorem write_case_sensitive (request offset : Nat) (value : List Nat)
    (s : Bool) (msg : List Char)
    (hdec : utf8Decode value = some msg)
    (hcase : rustToLowercase (rustTrim msg) = chars "on" ∨
      rustToLowercase (rustTrim msg) = chars "off")
    (h1 : rustTrim msg ≠ chars "on") (h2 : rustTrim msg ≠ chars "off") :
    (handle_updates (.WriteRequest request offset value) s).state = s := by
  simp [handle_updates, hdec, h1, h2]

/-- Witness for C5: the payload `"ON"` (bytes `[0x4F, 0x4E]`) lowercases to
`"on"` yet does not change the state. -/
theorem write_case_sensitive_witness :
    (handle_updates (.WriteRequest 0 0 [79, 78]) false).state = false :=
  write_case_sensitive 0 0 [79, 78] false (chars "ON") (by decide)
    (Or.inl (by decide)) (by decide) (by decide)

/-- C6: a console line is normalised by trim and lowercase; `"on"`/`"off"`
set the state and print the matching confirmation, any other line prints the
forwarding message and leaves the state; in all branches the characteristic
update carries the raw input line. -/
theorem console_line_behaviour (input : List Char) (s : Bool) :
    (processLine input s).updates = [input] ∧
    (rustToLowercase (rustTrim input) = chars "on" →
      (processLine input s).state = true ∧
      (processLine input s).printed = [.changedOn]) ∧
    (rustToLowercase (rustTrim input) = chars "off" →
      (processLine input s).state = false ∧
      (processLine input s).printed = [.changedOff]) ∧
    (rustToLowercase (rustTrim input) ≠ chars "on" →
      rustToLowercase (rustTrim input) ≠ chars "off" →
      (processLine input s).state = s ∧
      (processLine input s).printed = [.writing input]) := by
  by_cases h1 : rustToLowercase (rustTrim input) = chars "on"
  · have hne : chars "on" ≠ chars "off" := by decide
    refine ⟨by simp [processLine, h1], fun _ => by simp [processLine, h1],
      fun h => absurd (h1.symm.trans h) hne, fun hc _ => absurd h1 hc⟩
  · by_cases h2 : rustToLowercase (rustTrim input) = chars "off"
    · refine ⟨by simp [processLine, h1, h2, off_ne_on], fun h => absurd h h1,
        fun _ => by simp [processLine, h1, h2, off_ne_on],
        fun _ hc => absurd h2 hc⟩
    · refine ⟨by simp [processLine, h1, h2], fun h => absurd h h1,
        fun h => absurd h h2, fun _ _ => by simp [processLine, h1, h2]⟩

/-- Witness for C6: the mixed-case console line `"ON"` sets the state to ON,
prints the ON confirmation, and the update carries the raw line `"ON"`. -/
theorem console_line_behaviour_witness :
    (processLine (chars "ON") false).state = true ∧
    (processLine (chars "ON") false).printed = [.changedOn] ∧
    (processLine (chars "ON") false).updates = [chars "ON"] :=
  ⟨((console_line_behaviour (chars "ON") false).2.1 (by decide)).1,
    ((console_line_behaviour (chars "ON") false).2.1 (by decide)).2,
    (console_line_behaviour (chars "ON") false).1⟩

/-- C7: if the bootstrap sequence has completed its facade calls, then some
poll of `is_powered` returned true first, `add_service` and
`start_advertising` were each invoked at most once and in that order, and a
failing `add_service` means `start_advertising` was never invoked. -/
theorem startup_sequence (f : Facade) (fuel : Nat) (calls : List StartupCall)
    (h : start_app f fuel = some calls) :
    (∃ i, i < fuel ∧ f.is_powered i = true) ∧
    calls.count StartupCall.addService ≤ 1 ∧
    calls.count StartupCall.startAdvertising ≤ 1 ∧
    (calls = [.addService, .startAdvertising] ∨ calls = [.addService]) ∧
    (f.add_service_ok = false → StartupCall.startAdvertising ∉ calls) := by
  unfold start_app at h
  cases hp : pollPowerFrom f.is_powered 0 fuel with
  | none => rw [hp] at h; exact absurd h (by simp)
  | some j =>
    rw [hp] at h
    obtain ⟨hj, hlt⟩ := pollPowerFrom_powered f.is_powered fuel 0 j hp
    have hc : calls = startupCalls f := by
      simpa using h.symm
    subst hc
    unfold startupCalls
    by_cases hok : f.add_service_ok <;>
      simp [hok, List.count_cons, hj] <;>
      exact ⟨j, by omega, hj⟩

/-- Witness for C7: a facade powered off for two polls then on, with both
calls succeeding, yields the calls in order within five polls. -/
theorem startup_sequence_witness :
    (∃ i, i < 5 ∧ (fun n => decide (2 ≤ n)) i = true) ∧
    List.count StartupCall.addService
      [StartupCall.addService, StartupCall.startAdvertising] ≤ 1 ∧
    List.count StartupCall.startAdvertising
      [StartupCall.addService, StartupCall.startAdvertising] ≤ 1 ∧
    ([StartupCall.addService, StartupCall.startAdvertising]
        = [StartupCall.addService, StartupCall.startAdvertising] ∨
      [StartupCall.addService, StartupCall.startAdvertising]
        = [StartupCall.addService]) ∧
    (Facade.add_service_ok ⟨fun n => decide (2 ≤ n), true, true⟩ = false →
      StartupCall.startAdvertising
        ∉ [StartupCall.addService, StartupCall.startAdvertising]) :=
  startup_sequence ⟨fun n => decide (2 ≤ n), true, true⟩ 5
    [.addService, .startAdvertising] (by decide)

/-- C8: the state cell starts as OFF, and a ReadRequested event answered in
the initial state carries the value `"off"` with success kind. -/
theorem state_initialized_off (request offset : Nat) :
    STATE_init = false ∧
    (handle_updates (.ReadRequest request offset) STATE_init).responses
      = [.read ⟨chars "off", .Success⟩] :=
  ⟨rfl, rfl⟩

/-- C9: PowerStateChanged, SubscriptionChanged and unknown events leave the
state cell unchanged, send no response and issue no characteristic update. -/
theorem log_only_events (s is_on : Bool) (request : Nat) (subscribed : Bool) :
    handle_updates (.StateUpdate is_on) s = ⟨s, [], []⟩ ∧
    handle_updates (.CharacteristicSubscriptionUpdate request subscribed) s
      = ⟨s, [], []⟩ ∧
    handle_updates .Other s = ⟨s, [], []⟩ :=
  ⟨rfl, rfl, rfl⟩

/-- C10: a WriteRequested event issues exactly one characteristic update when
the payload decodes as text — carrying the canonical token when the trimmed
text matches `"on"`/`"off"`, and the raw decoded text otherwise — and no
update at all when decoding fails. -/
theorem write_update_content (request offset : Nat) (value : List Nat)
    (s : Bool) :
    (utf8Decode value = none →
      (handle_updates (.WriteRequest request offset value) s).updates = []) ∧
    (∀ msg, utf8Decode value = some msg →
      (handle_updates (.WriteRequest request offset value) s).updates
        = [if rustTrim msg = chars "on" then chars "on"
           else if rustTrim msg = chars "off" then chars "off"
           else msg]) := by
  constructor
  · intro h
    simp [handle_updates, h]
  · intro msg h
    by_cases h1 : rustTrim msg = chars "on"
    · simp [handle_updates, h, h1]
    · by_cases h2 : rustTrim msg = chars "off" <;>
        simp [handle_updates, h, h1, h2, off_ne_on]

/-- Witness for C10: the payload `" on"` (leading space) updates with the
canonical `"on"`, the payload `"hey"` updates with the raw text `"hey"`, and
the invalid payload `[0xFF]` issues no update. -/
theorem write_update_content_witness :
    (handle_updates (.WriteRequest 0 0 [32, 111, 110]) false).updates
        = [if rustTrim (chars " on") = chars "on" then chars "on"
           else if rustTrim (chars " on") = chars "off" then chars "off"
           else chars " on"] ∧
    (handle_updates (.WriteRequest 0 0 [104, 101, 121]) false).updates
        = [if rustTrim (chars "hey") = chars "on" then chars "on"
           else if rustTrim (chars "hey") = chars "off" then chars "off"
           else chars "hey"] ∧
    (handle_updates (.WriteRequest 0 0 [255]) false).updates = [] :=
  ⟨(write_update_content 0 0 [32, 111, 110] false).2 (chars " on") (by decide),
    (write_update_content 0 0 [104, 101, 121] false).2 (chars "hey") (by decide),
    (write_update_content 0 0 [255] false).1 (by decide)⟩
